import Mathlib

/-!
# Verification of the FROST(Pallas, BLAKE2b-512) ciphersuite layer

A shallow embedding of `src/frost_redpallas.rs`, the RedPallas FROST
ciphersuite: the Pallas scalar-field operations (`PallasScalarField`), the
Pallas group encoding layer (`PallasGroup`), the four domain-separated hash
personalization tags of `PallasBlake2b512`, and the dealer-based key
generation wrapper (`keys::keygen_with_dealer`).

The repository file delegates field and curve arithmetic to the external
`pasta_curves` crate, hashing to `blake2b_simd`, and the protocol engine to
`frost_core`; the specification declares all three to be abstract external
collaborators.  Where the behaviour of such an external (or of repository
code outside the provided sources, such as `crate::hash::HStar`) is needed
to settle a property, the corresponding definition is modelled from the
specification and its doc comment says so explicitly.

Byte strings (`[u8; 32]` buffers) are embedded as `List ℕ` with each entry
below 256; machine bytes carry no overflow behaviour in the embedded code,
which only ever moves them around, so `ℕ` entries are faithful.
-/

set_option maxRecDepth 100000

namespace RedPallas

/-! ## Generic numeric helpers: little-endian byte encoding, modular power -/

/-- Little-endian encoding of `n` into exactly `k` bytes (the layout used by
`pasta_curves` field `to_repr`). -/
def natToBytesLE : ℕ → ℕ → List ℕ
  | 0, _ => []
  | k + 1, n => n % 256 :: natToBytesLE k (n / 256)

/-- Little-endian byte-string decoding into a natural number (the layout
used by `pasta_curves` field `from_repr`). -/
def bytesToNatLE : List ℕ → ℕ
  | [] => 0
  | b :: bs => b + 256 * bytesToNatLE bs

/-- Fuel-bounded binary modular exponentiation, `a ^ e % n`; the fuel only
bounds the binary length of the exponent. -/
def powModAux : ℕ → ℕ → ℕ → ℕ → ℕ
  | 0, _, _, n => 1 % n
  | f + 1, a, e, n =>
    if e = 0 then 1 % n
    else
      let h := powModAux f a (e / 2) n
      let h2 := h * h % n
      if e % 2 = 1 then h2 * (a % n) % n else h2

theorem natToBytesLE_length (k n : ℕ) : (natToBytesLE k n).length = k := by
  induction k generalizing n with
  | zero => rfl
  | succ k ih => simp [natToBytesLE, ih]

theorem natToBytesLE_bytes_lt (k n : ℕ) : ∀ x ∈ natToBytesLE k n, x < 256 := by
  induction k generalizing n with
  | zero => simp [natToBytesLE]
  | succ k ih =>
    intro x hx
    simp only [natToBytesLE, List.mem_cons] at hx
    rcases hx with h | h
    · exact h ▸ Nat.mod_lt _ (by omega)
    · exact ih _ x h

theorem bytesToNatLE_natToBytesLE (k n : ℕ) :
    bytesToNatLE (natToBytesLE k n) = n % 256 ^ k := by
  induction k generalizing n with
  | zero => simp [natToBytesLE, bytesToNatLE, Nat.mod_one]
  | succ k ih =>
    have h256 : (0:ℕ) < 256 := by omega
    calc bytesToNatLE (natToBytesLE (k + 1) n)
        = n % 256 + 256 * (n / 256 % 256 ^ k) := by
          simp [natToBytesLE, bytesToNatLE, ih]
      _ = n % (256 * 256 ^ k) := (Nat.mod_mul).symm
      _ = n % 256 ^ (k + 1) := by rw [pow_succ, mul_comm]

theorem natToBytesLE_bytesToNatLE (l : List ℕ) (hl : ∀ x ∈ l, x < 256) :
    natToBytesLE l.length (bytesToNatLE l) = l := by
  induction l with
  | nil => rfl
  | cons b bs ih =>
    have hb : b < 256 := hl b (List.mem_cons_self ..)
    have hbs : ∀ x ∈ bs, x < 256 := fun x hx => hl x (List.mem_cons_of_mem _ hx)
    simp only [List.length_cons, natToBytesLE, bytesToNatLE]
    have hmod : (b + 256 * bytesToNatLE bs) % 256 = b := by omega
    have hdiv : (b + 256 * bytesToNatLE bs) / 256 = bytesToNatLE bs := by omega
    rw [hmod, hdiv, ih hbs]

theorem bytesToNatLE_lt (l : List ℕ) (hl : ∀ x ∈ l, x < 256) :
    bytesToNatLE l < 256 ^ l.length := by
  induction l with
  | nil => simp [bytesToNatLE]
  | cons b bs ih =>
    have hb : b < 256 := hl b (List.mem_cons_self ..)
    have hbs := ih fun x hx => hl x (List.mem_cons_of_mem _ hx)
    simp only [bytesToNatLE, List.length_cons, pow_succ]
    calc b + 256 * bytesToNatLE bs
        < 256 + 256 * bytesToNatLE bs := by omega
      _ = 256 * (bytesToNatLE bs + 1) := by ring
      _ ≤ 256 * 256 ^ bs.length := by
          exact Nat.mul_le_mul_left _ (by omega)
      _ = 256 ^ bs.length * 256 := by ring

theorem powModAux_eq (f : ℕ) : ∀ a e n : ℕ, 0 < n → e < 2 ^ f →
    powModAux f a e n = a ^ e % n := by
  induction f with
  | zero =>
    intro a e n hn he
    interval_cases e
    simp [powModAux]
  | succ f ih =>
    intro a e n hn he
    by_cases he0 : e = 0
    · simp [powModAux, he0]
    · have hlt : e / 2 < 2 ^ f := by
        have : e < 2 ^ f * 2 := by rw [← pow_succ]; exact he
        omega
      have hrec := ih a (e / 2) n hn hlt
      have hsplit : a ^ e = (a ^ (e / 2)) ^ 2 * a ^ (e % 2) := by
        rw [← pow_mul, ← pow_add]
        congr 1
        omega
      by_cases hpar : e % 2 = 1
      · simp only [powModAux, he0, if_false, hpar, if_true, hrec]
        rw [hsplit, hpar, pow_one]
        conv_rhs => rw [pow_two]
        rw [Nat.mul_mod (a ^ (e / 2) * a ^ (e / 2)) a, Nat.mul_mod (a ^ (e / 2)) (a ^ (e / 2))]
      · have hpar0 : e % 2 = 0 := by omega
        simp only [powModAux, he0, if_false, hpar, hrec]
        rw [hsplit, hpar0, pow_zero, mul_one, pow_two]
        conv_rhs => rw [Nat.mul_mod]

/-! ## The Pallas field parameters

`src/frost_redpallas.rs` uses `pasta_curves::pallas`: the Pallas curve
`y^2 = x^3 + 5` over the prime field of order `pallasBase`, whose group of
points has prime order `pallasOrder`; `pallas::Scalar` is the integers
modulo `pallasOrder`.  The two constants below are the public Pasta curve
parameters of that external crate. -/

/-- Order of the base field of the Pallas curve (the modulus of
`pallas::Base` in `pasta_curves`). -/
def pallasBase : ℕ :=
  0x40000000000000000000000000000000224698fc094cf91b992d30ed00000001

/-- Order of the Pallas curve group, i.e. the modulus of `pallas::Scalar`
in `pasta_curves`. -/
def pallasOrder : ℕ :=
  0x40000000000000000000000000000000224698fc0994a8dd8c46eb2100000001

instance : NeZero pallasOrder := ⟨by decide⟩

/-- The scalar type of the ciphersuite: `pallas::Scalar`, modelled as the
integers modulo the Pallas group order. -/
abbrev Scalar := ZMod pallasOrder

/-- The error values of `frost_core::Error` reachable from the embedded
code (`InvalidZeroScalar`, `MalformedScalar`, `MalformedElement`). -/
inductive Error where
  | InvalidZeroScalar
  | MalformedScalar
  | MalformedElement
deriving DecidableEq

deriving instance DecidableEq for Except

namespace PallasScalarField

/-- `PallasScalarField::zero` — `pallas::Scalar::zero()`. -/
def zero : Scalar := 0

/-- `PallasScalarField::one` — `pallas::Scalar::one()`. -/
def one : Scalar := 1

/-- Modelled from the spec: `pallas::Scalar::invert` of the external
`pasta_curves` crate, which per spec section 4.1 yields the multiplicative
inverse of a nonzero field element, returned in a `CtOption` that is `None`
exactly on the zero input. -/
def pastaInvert (s : Scalar) : Option Scalar :=
  if s = 0 then none else some s⁻¹

/-- `PallasScalarField::invert`: the zero guard returning
`Error::InvalidZeroScalar`, then `pallas::Scalar::invert(..).unwrap()`.
The outer `Option` models the `unwrap`: `none` is a panic, `some` a normal
return. -/
def invert (s : Scalar) : Option (Except Error Scalar) :=
  if s = zero then some (Except.error Error.InvalidZeroScalar)
  else (pastaInvert s).map Except.ok

/-- `PallasScalarField::random_nonzero`: rejection-sample from the stream
`rng` starting at position `pos` until a nonzero scalar appears.  The Rust
`loop` is unbounded; `fuel` bounds the embedded recursion, with `none`
standing for fuel exhaustion (the loop still running). -/
def randomNonzero (rng : ℕ → Scalar) : ℕ → ℕ → Option Scalar
  | 0, _ => none
  | fuel + 1, pos =>
    let scalar := rng pos
    if scalar ≠ 0 then some scalar else randomNonzero rng fuel (pos + 1)

/-- `PallasScalarField::serialize` — `scalar.to_repr()`: the canonical
32-byte little-endian encoding of the representative below the modulus. -/
def serialize (s : Scalar) : List ℕ := natToBytesLE 32 s.val

/-- `PallasScalarField::deserialize` — `pallas::Scalar::from_repr`, which
accepts exactly the little-endian encodings of values below the modulus,
mapped to `Error::MalformedScalar` on rejection. -/
def deserialize (b : List ℕ) : Except Error Scalar :=
  if bytesToNatLE b < pallasOrder then Except.ok ((bytesToNatLE b : ℕ) : Scalar)
  else Except.error Error.MalformedScalar

end PallasScalarField

/-! ## The Pallas group encoding layer

`PallasGroup` delegates to `pasta_curves::pallas::Point` for
`GroupEncoding` (`to_bytes`/`from_bytes`), an external crate.  No claim
concerns the group law, only the encoding layer, so the external point
type is modelled from the spec (sections 3, 4.2): group elements are in
bijection with their canonical fixed-width 32-byte encodings, the identity
being the all-zero buffer.  A byte string is a canonical encoding when it
is the identity encoding, or its masked little-endian x-coordinate (the
top bit of the last byte carrying the sign of y) is in base-field range
and `x^3 + 5` has a square root modulo `pallasBase` (tested with the Euler
criterion, which the embedding uses purely as the defining test). -/

/-- The all-zero 32-byte buffer, the canonical identity encoding. -/
def zeroBytes : List ℕ := List.replicate 32 0

/-- Strip the sign bit: the input with bit 7 of byte 31 cleared. -/
def maskTop (b : List ℕ) : List ℕ := b.take 31 ++ [b.getD 31 0 % 128]

/-- The x-coordinate carried by an encoding: the value of the masked
little-endian bytes. -/
def xCoord (b : List ℕ) : ℕ := bytesToNatLE (maskTop b)

/-- Euler-criterion test that `m` has a square root modulo `pallasBase`. -/
def sqrtExists (m : ℕ) : Bool :=
  m % pallasBase = 0 ||
    powModAux 256 (m % pallasBase) ((pallasBase - 1) / 2) pallasBase = 1

/-- Modelled from the spec: the canonical-encoding predicate of
`pallas::Point::from_bytes` (external `pasta_curves`). -/
def ValidEncoding (b : List ℕ) : Prop :=
  b.length = 32 ∧ (∀ x ∈ b, x < 256) ∧
    (b = zeroBytes ∨
      (xCoord b < pallasBase ∧ sqrtExists (xCoord b ^ 3 + 5) = true))

instance (b : List ℕ) : Decidable (ValidEncoding b) := by
  unfold ValidEncoding
  infer_instance

/-- Modelled from the spec: `pallas::Point`, a group element identified
with its canonical 32-byte encoding. -/
def Element : Type := { b : List ℕ // ValidEncoding b }

instance : DecidableEq Element := Subtype.instDecidableEq

namespace PallasGroup

/-- `PallasGroup::cofactor` — `Self::Field::one()`. -/
def cofactor : Scalar := PallasScalarField.one

/-- `PallasGroup::identity` — `pallas::Point::identity()`, the element
whose canonical encoding is the all-zero buffer. -/
def identity : Element := ⟨zeroBytes, by decide⟩

/-- `PallasGroup::serialize` — `element.to_bytes()`: the canonical
encoding of the element. -/
def serialize (e : Element) : List ℕ := e.val

/-- `PallasGroup::deserialize` — `pallas::Point::from_bytes`, mapped to
`Error::MalformedElement` on rejection. -/
def deserialize (b : List ℕ) : Except Error Element :=
  if h : ValidEncoding b then Except.ok ⟨b, h⟩
  else Except.error Error.MalformedElement

end PallasGroup

/-! ## Domain-separation tags of `PallasBlake2b512` -/

/-- ASCII bytes of a personalization string. -/
def strBytes (s : String) : List ℕ := s.toList.map Char.toNat

/-- Personalization of `H1`, the literal in `PallasBlake2b512::H1`. -/
def H1Tag : List ℕ := strBytes "Zcash_RedPallasH"

/-- Modelled from the spec: the default personalization of
`HStar::<orchard::SpendAuth>` used by `PallasBlake2b512::H2`
(`crate::hash::HStar::default`, in `src/hash.rs` and `src/orchard.rs`,
which are not among the provided sources).  Spec section 4.3 requires each
hash function to carry a fixed personalization string unique to this
ciphersuite and to the protocol role of that function; the concrete bytes below
are a placeholder standing for that unavailable constant, constrained by
the spec only to name the H2 role. -/
def H2Tag : List ℕ := strBytes "HStar_default_H2"

/-- Personalization of `H3`, the literal in `PallasBlake2b512::H3`. -/
def H3Tag : List ℕ := strBytes "FROST_RedPallasD"

/-- Personalization of `H4`, the literal in `PallasBlake2b512::H4`. -/
def H4Tag : List ℕ := strBytes "Zcash_RedPallasN"

/-! ## Dealer key generation -/

/-- The two key-generation failure kinds of spec section 7. -/
inductive KeygenError where
  | InvalidThreshold
  | InvalidSignerCount
deriving DecidableEq

/-- The share package of a signer: its 1-based index and its secret share. -/
structure SharePackage where
  index : ℕ
  share : Scalar
deriving DecidableEq

/-- Evaluation of a polynomial given by its coefficient list, constant
term first. -/
def polyEval (coeffs : List Scalar) (x : Scalar) : Scalar :=
  coeffs.foldr (fun c acc => c + x * acc) 0

/-- Modelled from the spec: `frost::keys::keygen_with_dealer` of the
external `frost_core` engine, as wrapped by `keys::keygen_with_dealer` in
`src/frost_redpallas.rs`.  Spec section 4.5: validate `num_signers ≥ 2`
and `1 ≤ threshold ≤ num_signers` before any randomness is drawn, the two
failure kinds signalled distinctly; then sample the secret and the
`threshold - 1` further polynomial coefficients and hand signer `i`
(1-based) the evaluation of the polynomial at `i`.  Randomness is a stream
of scalars read at a cursor; the cursor returned on success shows what was
consumed, and the published commitments to the coefficients are outside
this model (no claim concerns them). -/
def keygenWithDealer (stream : ℕ → Scalar) (numSigners threshold pos : ℕ) :
    Except KeygenError (List SharePackage × ℕ) :=
  if numSigners < 2 then Except.error KeygenError.InvalidSignerCount
  else if threshold = 0 ∨ numSigners < threshold then
    Except.error KeygenError.InvalidThreshold
  else
    let coeffs := (List.range threshold).map fun i => stream (pos + i)
    let shares := (List.range numSigners).map fun i =>
      SharePackage.mk (i + 1) (polyEval coeffs ((i + 1 : ℕ) : Scalar))
    Except.ok (shares, pos + threshold)

/-! ## Supporting lemmas -/

theorem serialize_val (s : Scalar) :
    bytesToNatLE (PallasScalarField.serialize s) = s.val := by
  unfold PallasScalarField.serialize
  rw [bytesToNatLE_natToBytesLE]
  exact Nat.mod_eq_of_lt (lt_trans (ZMod.val_lt s) (by decide))

theorem deserialize_serialize (s : Scalar) :
    PallasScalarField.deserialize (PallasScalarField.serialize s)
      = Except.ok s := by
  unfold PallasScalarField.deserialize
  rw [serialize_val, if_pos (ZMod.val_lt s)]
  exact congrArg Except.ok (ZMod.natCast_rightInverse s)

theorem zmod_pow_eq_powModAux (n a e f : ℕ) (hn : 0 < n) (he : e < 2 ^ f) :
    ((a : ZMod n)) ^ e = ((powModAux f a e n : ℕ) : ZMod n) := by
  rw [powModAux_eq f a e n hn he, ZMod.natCast_mod, Nat.cast_pow]

/-- Lucas certificate step: `N` is prime when some `a` has order `N - 1`
modulo `N`, checked against a full prime factor list of `N - 1`. -/
theorem lucas_cert (N a : ℕ) (l : List ℕ)
    (hprod : N - 1 = l.prod)
    (hl : ∀ p ∈ l, p.Prime)
    (ha : (a : ZMod N) ^ (N - 1) = 1)
    (hd : ∀ p ∈ l, (a : ZMod N) ^ ((N - 1) / p) ≠ 1) :
    N.Prime := by
  apply lucas_primality N (a : ZMod N) ha
  intro r hr hdvd
  apply hd r
  apply mem_list_primes_of_dvd_prod hr.prime
  · intro x hx
    exact (hl x hx).prime
  · rwa [← hprod]

/-- Pipeline check of the certificate machinery on a small prime. -/
theorem prime_101 : Nat.Prime 101 := by
  apply lucas_cert 101 2 [2, 2, 5, 5] (by norm_num)
  · intro p hp
    fin_cases hp <;> norm_num
  · rw [zmod_pow_eq_powModAux 101 2 100 256 (by norm_num) (by norm_num)]
    decide
  · intro p hp
    fin_cases hp <;>
      [skip; skip; skip; skip] <;>
      · rw [zmod_pow_eq_powModAux 101 2 _ 256 (by norm_num) (by norm_num)]
        decide

/-! Pratt-style primality certificates leading to `pallasOrder`. -/

theorem prime_2 : Nat.Prime 2 := by norm_num

theorem prime_3 : Nat.Prime 3 := by norm_num

theorem prime_5 : Nat.Prime 5 := by norm_num

theorem prime_7 : Nat.Prime 7 := by norm_num

theorem prime_11 : Nat.Prime 11 := by norm_num

theorem prime_13 : Nat.Prime 13 := by norm_num

theorem prime_17 : Nat.Prime 17 := by norm_num

theorem prime_19 : Nat.Prime 19 := by norm_num

theorem prime_23 : Nat.Prime 23 := by norm_num

theorem prime_29 : Nat.Prime 29 := by norm_num

theorem prime_43 : Nat.Prime 43 := by norm_num

theorem prime_53 : Nat.Prime 53 := by norm_num

theorem prime_59 : Nat.Prime 59 := by norm_num

theorem prime_61 : Nat.Prime 61 := by norm_num

theorem prime_71 : Nat.Prime 71 := by norm_num

theorem prime_89 : Nat.Prime 89 := by norm_num

theorem prime_173 : Nat.Prime 173 := by norm_num

theorem prime_179 : Nat.Prime 179 := by norm_num

theorem prime_241 : Nat.Prime 241 := by norm_num

theorem prime_359 : Nat.Prime 359 := by norm_num

theorem prime_757 : Nat.Prime 757 := by norm_num

theorem prime_827 : Nat.Prime 827 := by norm_num

theorem prime_1381 : Nat.Prime 1381 := by norm_num

theorem prime_1709 : Nat.Prime 1709 := by norm_num

theorem prime_2557 : Nat.Prime 2557 := by norm_num

theorem prime_3037 : Nat.Prime 3037 := by norm_num

theorem prime_6091 : Nat.Prime 6091 := by norm_num

theorem prime_12149 : Nat.Prime 12149 := by norm_num

theorem prime_24859 : Nat.Prime 24859 := by norm_num

theorem prime_31649 : Nat.Prime 31649 := by norm_num

theorem prime_68477 : Nat.Prime 68477 := by norm_num

theorem prime_125803 : Nat.Prime 125803 := by norm_num

theorem prime_294793 : Nat.Prime 294793 := by norm_num

theorem prime_958679 : Nat.Prime 958679 := by norm_num

theorem prime_2012849 : Nat.Prime 2012849 := by norm_num

theorem prime_4025699 : Nat.Prime 4025699 := by norm_num

theorem prime_4229279 : Nat.Prime 4229279 := by norm_num

theorem prime_5701177 : Nat.Prime 5701177 := by norm_num

theorem prime_80513981 : Nat.Prime 80513981 := by
  apply lucas_cert 80513981 2 [2, 2, 5, 4025699] (by decide)
  · intro p hp
    fin_cases hp <;>
      first | exact prime_2 | exact prime_4025699 | exact prime_5
  · rw [zmod_pow_eq_powModAux 80513981 2 (80513981 - 1) 256 (by norm_num) (by norm_num)]
    decide
  · intro p hp
    fin_cases hp <;>
      · rw [zmod_pow_eq_powModAux 80513981 2 _ 256 (by norm_num) (by norm_num)]
        decide

theorem prime_399082391 : Nat.Prime 399082391 := by
  apply lucas_cert 399082391 7 [2, 5, 7, 5701177] (by decide)
  · intro p hp
    fin_cases hp <;>
      first | exact prime_2 | exact prime_5 | exact prime_5701177 | exact prime_7
  · rw [zmod_pow_eq_powModAux 399082391 7 (399082391 - 1) 256 (by norm_num) (by norm_num)]
    decide
  · intro p hp
    fin_cases hp <;>
      · rw [zmod_pow_eq_powModAux 399082391 7 _ 256 (by norm_num) (by norm_num)]
        decide

theorem prime_4129989133 : Nat.Prime 4129989133 := by
  apply lucas_cert 4129989133 5 [2, 2, 3, 359, 958679] (by decide)
  · intro p hp
    fin_cases hp <;>
      first | exact prime_2 | exact prime_3 | exact prime_359 | exact prime_958679
  · rw [zmod_pow_eq_powModAux 4129989133 5 (4129989133 - 1) 256 (by norm_num) (by norm_num)]
    decide
  · intro p hp
    fin_cases hp <;>
      · rw [zmod_pow_eq_powModAux 4129989133 5 _ 256 (by norm_num) (by norm_num)]
        decide

theorem prime_5239247429827 : Nat.Prime 5239247429827 := by
  apply lucas_cert 5239247429827 2 [2, 3, 3, 757, 12149, 31649] (by decide)
  · intro p hp
    fin_cases hp <;>
      first | exact prime_12149 | exact prime_2 | exact prime_3 | exact prime_31649 | exact prime_757
  · rw [zmod_pow_eq_powModAux 5239247429827 2 (5239247429827 - 1) 256 (by norm_num) (by norm_num)]
    decide
  · intro p hp
    fin_cases hp <;>
      · rw [zmod_pow_eq_powModAux 5239247429827 2 _ 256 (by norm_num) (by norm_num)]
        decide

theorem prime_5247740253619 : Nat.Prime 5247740253619 := by
  apply lucas_cert 5247740253619 2 [2, 3, 3, 3, 17, 71, 80513981] (by decide)
  · intro p hp
    fin_cases hp <;>
      first | exact prime_17 | exact prime_2 | exact prime_3 | exact prime_71 | exact prime_80513981
  · rw [zmod_pow_eq_powModAux 5247740253619 2 (5247740253619 - 1) 256 (by norm_num) (by norm_num)]
    decide
  · intro p hp
    fin_cases hp <;>
      · rw [zmod_pow_eq_powModAux 5247740253619 2 _ 256 (by norm_num) (by norm_num)]
        decide

theorem prime_1690502597179744445941507 : Nat.Prime 1690502597179744445941507 := by
  apply lucas_cert 1690502597179744445941507 2 [2, 3, 13, 4129989133, 5247740253619] (by decide)
  · intro p hp
    fin_cases hp <;>
      first | exact prime_13 | exact prime_2 | exact prime_3 | exact prime_4129989133 | exact prime_5247740253619
  · rw [zmod_pow_eq_powModAux 1690502597179744445941507 2 (1690502597179744445941507 - 1) 256 (by norm_num) (by norm_num)]
    decide
  · intro p hp
    fin_cases hp <;>
      · rw [zmod_pow_eq_powModAux 1690502597179744445941507 2 _ 256 (by norm_num) (by norm_num)]
        decide

theorem prime_10427374428728808478656897599072717 : Nat.Prime 10427374428728808478656897599072717 := by
  apply lucas_cert 10427374428728808478656897599072717 2 [2, 2, 294793, 4229279, 399082391, 5239247429827] (by decide)
  · intro p hp
    fin_cases hp <;>
      first | exact prime_2 | exact prime_294793 | exact prime_399082391 | exact prime_4229279 | exact prime_5239247429827
  · rw [zmod_pow_eq_powModAux 10427374428728808478656897599072717 2 (10427374428728808478656897599072717 - 1) 256 (by norm_num) (by norm_num)]
    decide
  · intro p hp
    fin_cases hp <;>
      · rw [zmod_pow_eq_powModAux 10427374428728808478656897599072717 2 _ 256 (by norm_num) (by norm_num)]
        decide

theorem prime_28948022309329048855892746252171976963363056481941647379679742748393362948097 : Nat.Prime 28948022309329048855892746252171976963363056481941647379679742748393362948097 := by
  apply lucas_cert 28948022309329048855892746252171976963363056481941647379679742748393362948097 5 [2, 2, 2, 2, 2, 2, 2, 2, 2, 2, 2, 2, 2, 2, 2, 2, 2, 2, 2, 2, 2, 2, 2, 2, 2, 2, 2, 2, 2, 2, 2, 2, 3, 3, 1709, 24859, 1690502597179744445941507, 10427374428728808478656897599072717] (by decide)
  · intro p hp
    fin_cases hp <;>
      first | exact prime_10427374428728808478656897599072717 | exact prime_1690502597179744445941507 | exact prime_1709 | exact prime_2 | exact prime_24859 | exact prime_3
  · rw [zmod_pow_eq_powModAux 28948022309329048855892746252171976963363056481941647379679742748393362948097 5 (28948022309329048855892746252171976963363056481941647379679742748393362948097 - 1) 256 (by norm_num) (by norm_num)]
    decide
  · intro p hp
    fin_cases hp <;>
      · rw [zmod_pow_eq_powModAux 28948022309329048855892746252171976963363056481941647379679742748393362948097 5 _ 256 (by norm_num) (by norm_num)]
        decide

/-- The Pallas group order is prime. -/
theorem pallasOrder_prime : Nat.Prime pallasOrder := by
  have h : Nat.Prime 28948022309329048855892746252171976963363056481941647379679742748393362948097 := prime_28948022309329048855892746252171976963363056481941647379679742748393362948097
  exact h

/-! ## The claims -/

/-- C1: the domain-separation tags of the four hash functions of
`PallasBlake2b512` are pairwise-distinct byte strings. -/
theorem hash_tags_pairwise_distinct :
    H1Tag ≠ H2Tag ∧ H1Tag ≠ H3Tag ∧ H1Tag ≠ H4Tag ∧
    H2Tag ≠ H3Tag ∧ H2Tag ≠ H4Tag ∧ H3Tag ≠ H4Tag := by
  decide

/-- C3: serializing the group identity element yields the all-zero
fixed-width 32-byte buffer. -/
theorem serialize_identity_eq_zero :
    PallasGroup.serialize PallasGroup.identity = List.replicate 32 0 := rfl

/-- C7: whenever `PallasScalarField::random_nonzero` returns, the returned
scalar is not the zero scalar. -/
theorem randomNonzero_ne_zero (rng : ℕ → Scalar) (fuel pos : ℕ) (s : Scalar)
    (h : PallasScalarField.randomNonzero rng fuel pos = some s) : s ≠ 0 := by
  induction fuel generalizing pos with
  | zero => simp [PallasScalarField.randomNonzero] at h
  | succ fuel ih =>
    simp only [PallasScalarField.randomNonzero] at h
    split at h
    · cases h
      assumption
    · exact ih _ h

/-- Witness for C7 at a concrete generator stream. -/
theorem randomNonzero_ne_zero_witness :
    PallasScalarField.randomNonzero (fun _ => 3) 1 0 = some 3 ∧
      (3 : Scalar) ≠ 0 :=
  ⟨by decide, randomNonzero_ne_zero (fun _ => 3) 1 0 3 (by decide)⟩

/-- C8: `PallasGroup::cofactor()` returns the
multiplicative identity of the scalar field. -/
theorem cofactor_eq_one :
    PallasGroup.cofactor = PallasScalarField.one := rfl

/-- C9: `PallasScalarField::invert` is total and never panics: on every
input it returns a value (first conjunct), because under the nonzero guard
the library inversion always succeeds (second conjunct), making the
`unwrap` unreachable-on-error. -/
theorem invert_never_panics :
    (∀ s : Scalar, (PallasScalarField.invert s).isSome = true) ∧
    (∀ s : Scalar, s ≠ 0 →
      (PallasScalarField.pastaInvert s).isSome = true) := by
  constructor
  · intro s
    by_cases h : s = 0 <;>
      simp [PallasScalarField.invert, PallasScalarField.pastaInvert,
        PallasScalarField.zero, h]
  · intro s hs
    simp [PallasScalarField.pastaInvert, hs]

/-- Witness for C9 at the scalar 2. -/
theorem invert_never_panics_witness :
    (PallasScalarField.invert 2).isSome = true ∧ (2 : Scalar) ≠ 0 ∧
      (PallasScalarField.pastaInvert 2).isSome = true :=
  ⟨invert_never_panics.1 2, by decide, invert_never_panics.2 2 (by decide)⟩

/-- C10: serialization is a right inverse of deserialization on all
in-range values, for scalars and for group elements. -/
theorem serialize_rightInverse :
    (∀ s : Scalar, PallasScalarField.deserialize (PallasScalarField.serialize s)
        = Except.ok s) ∧
    (∀ e : Element, PallasGroup.deserialize (PallasGroup.serialize e)
        = Except.ok e) := by
  refine ⟨deserialize_serialize, fun e => ?_⟩
  unfold PallasGroup.deserialize PallasGroup.serialize
  rw [dif_pos e.2]
  rfl

/-- C5: re-serializing and re-deserializing a successfully decoded scalar
reproduces the same scalar. -/
theorem scalar_roundtrip_stability (b : List ℕ) (s : Scalar)
    (hlen : b.length = 32) (hbytes : ∀ x ∈ b, x < 256)
    (h : PallasScalarField.deserialize b = Except.ok s) :
    PallasScalarField.deserialize (PallasScalarField.serialize s)
      = PallasScalarField.deserialize b := by
  rw [h, deserialize_serialize]

/-- Witness for C5 at the all-zero buffer. -/
theorem scalar_roundtrip_stability_witness :
    PallasScalarField.deserialize (List.replicate 32 0) = Except.ok 0 ∧
    PallasScalarField.deserialize
        (PallasScalarField.serialize 0)
      = PallasScalarField.deserialize (List.replicate 32 0) := by
  have h0 : PallasScalarField.deserialize (List.replicate 32 0)
      = Except.ok 0 := by decide
  exact ⟨h0, scalar_roundtrip_stability (List.replicate 32 0) 0 (by decide)
    (by decide) h0⟩

/-- C4: every 32-byte string that is not a canonical in-range encoding is
rejected: with `MalformedScalar` by the scalar field, with
`MalformedElement` by the group (both deserializers are total functions,
so neither panics nor accepts such an input). -/
theorem deserialize_rejects_noncanonical (b : List ℕ)
    (hlen : b.length = 32) (hbytes : ∀ x ∈ b, x < 256) :
    (¬(∃ s : Scalar, PallasScalarField.serialize s = b) →
      PallasScalarField.deserialize b = Except.error Error.MalformedScalar) ∧
    (¬(∃ e : Element, PallasGroup.serialize e = b) →
      PallasGroup.deserialize b = Except.error Error.MalformedElement) := by
  constructor
  · intro hnc
    unfold PallasScalarField.deserialize
    rw [if_neg]
    intro hlt
    apply hnc
    refine ⟨((bytesToNatLE b : ℕ) : Scalar), ?_⟩
    unfold PallasScalarField.serialize
    rw [ZMod.val_cast_of_lt hlt]
    calc natToBytesLE 32 (bytesToNatLE b)
        = natToBytesLE b.length (bytesToNatLE b) := by rw [hlen]
      _ = b := natToBytesLE_bytesToNatLE b hbytes
  · intro hnc
    unfold PallasGroup.deserialize
    rw [dif_neg]
    intro hv
    exact hnc ⟨⟨b, hv⟩, rfl⟩

/-- C2: `PallasScalarField::invert` fails with `InvalidZeroScalar` on the
zero scalar, and on every nonzero scalar returns `Ok` of the
multiplicative inverse, whose product with the input is `one()`. -/
theorem invert_spec :
    PallasScalarField.invert PallasScalarField.zero
        = some (Except.error Error.InvalidZeroScalar) ∧
    ∀ s : Scalar, s ≠ 0 → ∃ t : Scalar,
      PallasScalarField.invert s = some (Except.ok t) ∧
        t * s = PallasScalarField.one := by
  constructor
  · simp [PallasScalarField.invert]
  · intro s hs
    refine ⟨s⁻¹, ?_, ?_⟩
    · simp [PallasScalarField.invert, PallasScalarField.zero,
        PallasScalarField.pastaInvert, hs]
    · have hvne : s.val ≠ 0 := by
        intro h0
        apply hs
        rw [← ZMod.natCast_rightInverse s, h0, Nat.cast_zero]
      have hnotdvd : ¬ pallasOrder ∣ s.val := fun hdvd =>
        absurd (Nat.le_of_dvd (Nat.pos_of_ne_zero hvne) hdvd)
          (not_le.mpr (ZMod.val_lt s))
      have hcop : Nat.Coprime s.val pallasOrder :=
        ((Nat.Prime.coprime_iff_not_dvd pallasOrder_prime).mpr hnotdvd).symm
      have hu : IsUnit s := by
        rw [← ZMod.natCast_rightInverse s]
        exact (ZMod.isUnit_iff_coprime s.val pallasOrder).mpr hcop
      exact (ZMod.inv_mul_of_unit s hu).trans rfl

/-- Witness for C2 at the scalar 2. -/
theorem invert_spec_witness :
    (2 : Scalar) ≠ 0 ∧ ∃ t : Scalar,
      PallasScalarField.invert 2 = some (Except.ok t) ∧
        t * 2 = PallasScalarField.one :=
  ⟨by decide, invert_spec.2 2 (by decide)⟩

/-- Witness for C4 at the all-255 buffer, canonical for neither scalars
nor group elements. -/
theorem deserialize_rejects_noncanonical_witness :
    PallasScalarField.deserialize (List.replicate 32 255)
        = Except.error Error.MalformedScalar ∧
    PallasGroup.deserialize (List.replicate 32 255)
        = Except.error Error.MalformedElement := by
  have h := deserialize_rejects_noncanonical (List.replicate 32 255)
    (by decide) (by decide)
  refine ⟨h.1 ?_, h.2 ?_⟩
  · rintro ⟨s, hs⟩
    have hval : bytesToNatLE (List.replicate 32 255) = s.val := by
      rw [← hs, serialize_val]
    have hlt := ZMod.val_lt s
    rw [← hval] at hlt
    have : ¬ bytesToNatLE (List.replicate 32 255) < pallasOrder := by decide
    exact this hlt
  · rintro ⟨e, he⟩
    have hv := e.2
    rw [PallasGroup.serialize] at he
    rw [he] at hv
    have : ¬ ValidEncoding (List.replicate 32 255) := by decide
    exact this hv

/-- C6: `keygen_with_dealer` fails deterministically and without consuming
randomness whenever the threshold is zero, exceeds the signer count, or
the signer count is below 2, and the failure value distinguishes a bad
threshold from a bad signer count. -/
theorem keygen_validation (numSigners threshold : ℕ)
    (hbad : threshold = 0 ∨ numSigners < threshold ∨ numSigners < 2) :
    (∀ stream stream₂ : ℕ → Scalar, ∀ pos pos₂ : ℕ,
      ∃ err : KeygenError,
        keygenWithDealer stream numSigners threshold pos
            = Except.error err ∧
          keygenWithDealer stream₂ numSigners threshold pos₂
            = Except.error err) ∧
    (2 ≤ numSigners → ∀ (stream : ℕ → Scalar) (pos : ℕ),
      keygenWithDealer stream numSigners threshold pos
        = Except.error KeygenError.InvalidThreshold) ∧
    (numSigners < 2 → ∀ (stream : ℕ → Scalar) (pos : ℕ),
      keygenWithDealer stream numSigners threshold pos
        = Except.error KeygenError.InvalidSignerCount) := by
  refine ⟨?_, ?_, ?_⟩
  · intro stream stream₂ pos pos₂
    by_cases h2 : numSigners < 2
    · exact ⟨KeygenError.InvalidSignerCount,
        by simp [keygenWithDealer, h2], by simp [keygenWithDealer, h2]⟩
    · have hb : threshold = 0 ∨ numSigners < threshold := by omega
      exact ⟨KeygenError.InvalidThreshold,
        by simp [keygenWithDealer, h2, hb], by simp [keygenWithDealer, h2, hb]⟩
  · intro hn stream pos
    have h2 : ¬ numSigners < 2 := by omega
    have hb : threshold = 0 ∨ numSigners < threshold := by omega
    simp [keygenWithDealer, h2, hb]
  · intro hn stream pos
    simp [keygenWithDealer, hn]

/-- Witness for C6: a zero threshold with five signers is a threshold
error; a single signer is a signer-count error. -/
theorem keygen_validation_witness :
    keygenWithDealer (fun _ => 0) 5 0 0
        = Except.error KeygenError.InvalidThreshold ∧
      keygenWithDealer (fun _ => 0) 1 1 0
        = Except.error KeygenError.InvalidSignerCount :=
  ⟨(keygen_validation 5 0 (by omega)).2.1 (by omega) (fun _ => 0) 0,
   (keygen_validation 1 1 (by omega)).2.2 (by omega) (fun _ => 0) 0⟩

end RedPallas
